import Mathlib

/-!
Verification of the B2F message codec (src/b2f.py) against its specification.

The Python module is shallowly embedded: bytes are lists of naturals
(0..255 on real inputs), Python str is Lean String (built from List Char),
Python dicts are ordered association lists, and every fallible Python
operation (KeyError, ValueError, AssertionError, UnicodeDecodeError,
UnicodeEncodeError, LookupError) is an Except/Option value labelled by the
site at which the exception is raised in src/b2f.py.
-/

namespace B2F

/-- Index of the first occurrence of the contiguous pattern pat in xs,
as used by Python's partition to locate the separator. -/
def findSub {α : Type} [DecidableEq α] : List α → List α → Option Nat
  | [], pat => if pat = [] then some 0 else none
  | x :: rest, pat =>
    if pat.isPrefixOf (x :: rest) then some 0
    else (findSub rest pat).map (· + 1)

/-- Python s.partition(sep): split at the first occurrence of sep, returning
(before, sep, after); if sep does not occur, return (s, empty, empty).
Used for bytes.partition(CRLFCRLF) and str.partition of a header line. -/
def pyPartition3 {α : Type} [DecidableEq α] (xs pat : List α) :
    List α × List α × List α :=
  match findSub xs pat with
  | none => (xs, [], [])
  | some i => (xs.take i, pat, xs.drop (i + pat.length))

/-- Characters at which Python str.splitlines breaks a line. -/
def isLineBoundary (c : Char) : Bool :=
  c = '\n' || c = '\r' || c = '\x0b' || c = '\x0c' ||
  c = '\x1c' || c = '\x1d' || c = '\x1e' || c = '\x85' ||
  c = '\u2028' || c = '\u2029'

def pySplitlinesAux : List Char → List Char → List (List Char)
  | [], acc => if acc.isEmpty then [] else [acc.reverse]
  | '\r' :: '\n' :: rest, acc => acc.reverse :: pySplitlinesAux rest []
  | c :: rest, acc =>
    if isLineBoundary c then acc.reverse :: pySplitlinesAux rest []
    else pySplitlinesAux rest (c :: acc)

/-- Python str.splitlines: split at line boundaries (CRLF counting as one),
with no trailing empty line. -/
def pySplitlines (s : List Char) : List (List Char) := pySplitlinesAux s []

/-- Whitespace stripped by Python str.strip() (the ASCII part, plus U+0085;
header text in this codec is ASCII-decoded before any stripping). -/
def pyIsSpace (c : Char) : Bool :=
  c = ' ' || c = '\t' || c = '\n' || c = '\r' || c = '\x0b' || c = '\x0c' ||
  c = '\x1c' || c = '\x1d' || c = '\x1e' || c = '\x1f' || c = '\x85'

def pyStrip (s : List Char) : List Char :=
  ((s.dropWhile pyIsSpace).reverse.dropWhile pyIsSpace).reverse

def digitVal (c : Char) : Nat := c.toNat - 48

/-- Digit run of Python int(): decimal digits with single underscores allowed
strictly between digits; the accumulator already holds at least one digit. -/
def pyDigitsAux : List Char → Nat → Option Nat
  | [], acc => some acc
  | '_' :: c :: rest, acc =>
    if c.isDigit then pyDigitsAux rest (acc * 10 + digitVal c) else none
  | c :: rest, acc =>
    if c.isDigit then pyDigitsAux rest (acc * 10 + digitVal c) else none

def pyDigits : List Char → Option Nat
  | [] => none
  | c :: rest => if c.isDigit then pyDigitsAux rest (digitVal c) else none

/-- Python int(s) on a str: strip whitespace, optional sign, decimal digits
(underscores permitted between digits); none models the ValueError. -/
def pyInt (s : List Char) : Option Int :=
  match pyStrip s with
  | '+' :: rest => (pyDigits rest).map (fun n => (n : Int))
  | '-' :: rest => (pyDigits rest).map (fun n => -(n : Int))
  | rest => (pyDigits rest).map (fun n => (n : Int))

/-- Python slice xs[a:b] with int bounds: a negative index counts from the
end, out-of-range indices clamp, and an empty slice results when the
(resolved) start is not below the stop. Never fails. -/
def pySlice {α : Type} (xs : List α) (a b : Int) : List α :=
  let n : Int := xs.length
  let a2 : Int := if a < 0 then max (n + a) 0 else min a n
  let b2 : Int := if b < 0 then max (n + b) 0 else min b n
  if a2 < b2 then (xs.drop a2.toNat).take (b2 - a2).toNat else []

/-- Python xs[:b]. -/
def pySliceTo {α : Type} (xs : List α) (b : Int) : List α := pySlice xs 0 b

/-- Decode-side failures, labelled by the site in B2FMessage.parse at which
the corresponding Python exception is raised. -/
inductive PErr where
  /-- header_data.decode("ascii") raises UnicodeDecodeError (line 41). -/
  | invalidHeaderEncoding
  /-- a dict lookup of an absent header name raises KeyError. -/
  | missingHeader (name : String)
  /-- the assert len(header) == 1 in get_single_header fails (line 52). -/
  | duplicateHeader (name : String)
  /-- int(get_single_header("body")) raises ValueError (line 55). -/
  | invalidBodyLength
  /-- contents.decode(content_type) raises LookupError (line 61). -/
  | unknownEncoding
  /-- contents.decode(content_type) raises UnicodeDecodeError (line 61). -/
  | invalidBodyEncoding
  /-- int(file_len) raises ValueError (line 68). -/
  | invalidFileLength
  /-- datetime.strptime raises ValueError (line 78). -/
  | invalidDate
deriving DecidableEq, Repr

/-- Strict ASCII decoding: every byte must be below 0x80. -/
def asciiDecodeCore : List Nat → Option (List Char)
  | [] => some []
  | b :: rest =>
    if b < 128 then (asciiDecodeCore rest).map (Char.ofNat b :: ·) else none

/-- Latin-1 (ISO-8859-1) decoding: each byte maps to the code point of the
same value; total on bytes. -/
def latin1Decode (bs : List Nat) : List Char := bs.map Char.ofNat

/-- Strict UTF-8 decoding (rejecting overlong forms, surrogates and
code points above U+10FFFF), as Python's utf-8 codec does. -/
def utf8Decode : List Nat → Option (List Char)
  | [] => some []
  | b1 :: rest =>
    if b1 < 0x80 then (utf8Decode rest).map (Char.ofNat b1 :: ·)
    else if b1 < 0xC2 then none
    else if b1 < 0xE0 then
      match rest with
      | b2 :: rest2 =>
        if 0x80 ≤ b2 && b2 < 0xC0 then
          (utf8Decode rest2).map
            (Char.ofNat ((b1 - 0xC0) * 64 + (b2 - 0x80)) :: ·)
        else none
      | [] => none
    else if b1 < 0xF0 then
      match rest with
      | b2 :: b3 :: rest2 =>
        let lo2 := if b1 = 0xE0 then 0xA0 else 0x80
        let hi2 := if b1 = 0xED then 0xA0 else 0xC0
        if lo2 ≤ b2 && b2 < hi2 && 0x80 ≤ b3 && b3 < 0xC0 then
          (utf8Decode rest2).map
            (Char.ofNat ((b1 - 0xE0) * 4096 + (b2 - 0x80) * 64 + (b3 - 0x80)) :: ·)
        else none
      | _ => none
    else if b1 < 0xF5 then
      match rest with
      | b2 :: b3 :: b4 :: rest2 =>
        let lo2 := if b1 = 0xF0 then 0x90 else 0x80
        let hi2 := if b1 = 0xF4 then 0x90 else 0xC0
        if lo2 ≤ b2 && b2 < hi2 && 0x80 ≤ b3 && b3 < 0xC0 &&
            0x80 ≤ b4 && b4 < 0xC0 then
          (utf8Decode rest2).map
            (Char.ofNat ((b1 - 0xF0) * 262144 + (b2 - 0x80) * 4096 +
              (b3 - 0x80) * 64 + (b4 - 0x80)) :: ·)
        else none
      | _ => none
    else none

/-- The normalization Python codec lookup applies to an encoding name:
lower-case it and collapse each run of characters other than alphanumerics
and dots into a single underscore (no leading underscore). -/
def normalizeEncodingAux : List Char → Bool → Bool → List Char
  | [], _, _ => []
  | c :: rest, punct, started =>
    if c.isAlphanum || c = '.' then
      (if punct && started then ['_'] else []) ++
        (c.toLower :: normalizeEncodingAux rest false true)
    else normalizeEncodingAux rest true started

def normalizeEncoding (s : List Char) : List Char :=
  normalizeEncodingAux s false false

/-- Python codec aliases (encodings/aliases.py) for the Latin-1 codec. -/
def latin1Names : List String :=
  ["latin_1", "latin1", "latin", "l1", "iso8859_1", "iso_8859_1", "iso8859",
   "8859", "cp819", "iso_8859_1_1987", "iso_ir_100", "csisolatin1", "ibm819"]

/-- Python codec aliases for the ASCII codec. -/
def asciiNames : List String :=
  ["ascii", "us_ascii", "646", "ansi_x3.4_1968", "ansi_x3.4_1986",
   "iso646_us", "iso_646.irv_1991", "ibm367", "cp367", "csascii", "us",
   "ansi_x3_4_1968"]

/-- Python codec aliases for the UTF-8 codec. -/
def utf8Names : List String := ["utf_8", "utf8", "utf", "u8", "cp65001"]

/-- contents.decode(content_type) (src/b2f.py line 61): look the charset up
by normalized name and decode. The table covers the codecs this development
exercises (Latin-1, ASCII, UTF-8); every other name is modelled as the
LookupError branch. -/
def decodeCharset (name : String) (bs : List Nat) : Except PErr (List Char) :=
  let n := String.mk (normalizeEncoding name.data)
  if latin1Names.contains n then .ok (latin1Decode bs)
  else if asciiNames.contains n then
    match asciiDecodeCore bs with
    | some cs => .ok cs
    | none => .error .invalidBodyEncoding
  else if utf8Names.contains n then
    match utf8Decode bs with
    | some cs => .ok cs
    | none => .error .invalidBodyEncoding
  else .error .unknownEncoding

/-- str.casefold() restricted to ASCII (header names here come out of an
ASCII decode, where casefolding agrees with ASCII lower-casing). -/
def pyCasefold (s : String) : String :=
  String.mk (s.data.map (fun c =>
    if 'A' ≤ c && c ≤ 'Z' then Char.ofNat (c.toNat + 32) else c))

/-- Lookup in an ordered association list modelling a Python dict
(unique keys, insertion order). -/
def assocFind {β : Type} : List (String × β) → String → Option β
  | [], _ => none
  | (k0, v) :: rest, k => if k0 = k then some v else assocFind rest k

/-- Python d[k] = v on a dict modelled as an ordered association list:
overwrite in place if the key exists, else append at the end. -/
def dictSet {β : Type} : List (String × β) → String → β → List (String × β)
  | [], k, v => [(k, v)]
  | (k0, v0) :: rest, k, v =>
    if k0 = k then (k0, v) :: rest else (k0, v0) :: dictSet rest k v

/-- One step of the header-accumulation loop of B2FMessage.parse
(src/b2f.py lines 43-46): append the value to the entry of the exact
(case-sensitive) name, creating the entry at first occurrence. -/
def addHeaderLine (hs : List (String × List String)) (k v : String) :
    List (String × List String) :=
  match hs with
  | [] => [(k, [v])]
  | (k0, vs) :: rest =>
    if k0 = k then (k0, vs ++ [v]) :: rest
    else (k0, vs) :: addHeaderLine rest k v

/-- The headers dict of B2FMessage.parse (src/b2f.py lines 40-46): each
logical line is split on the first ": " (a line without it becomes a name
with an empty value). -/
def accumHeaders (lines : List (List Char)) : List (String × List String) :=
  lines.foldl (fun hs line =>
    let p := pyPartition3 line [':', ' ']
    addHeaderLine hs (String.mk p.1) (String.mk p.2.2)) []

/-- casefolded_headers (src/b2f.py line 48): a dict comprehension re-keying
the headers dict by casefolded name; a later distinct casing of the same
name overwrites the earlier one's value list. -/
def casefoldedHeaders (hs : List (String × List String)) :
    List (String × List String) :=
  hs.foldl (fun d kv => dictSet d (pyCasefold kv.1) kv.2) []

/-- get_single_header (src/b2f.py lines 50-53): KeyError on an absent name
(missingHeader), assert len == 1 on a multi-valued one (duplicateHeader). -/
def get_single_header (cf : List (String × List String)) (name : String) :
    Except PErr String :=
  match assocFind cf (pyCasefold name) with
  | none => .error (.missingHeader name)
  | some [v] => .ok v
  | some _ => .error (.duplicateHeader name)

def KNOWN_B2F_HEADERS : List String :=
  ["mid", "date", "type", "from", "to", "cc", "subject", "mbo", "body", "file"]

/-- datetime.datetime restricted to the fields the B2F date format carries
(strptime with "%Y/%m/%d %H:%M" always yields zero seconds). -/
structure PyDateTime where
  year : Nat
  month : Nat
  day : Nat
  hour : Nat
  minute : Nat
deriving DecidableEq, Repr

/-- %Y in strptime: exactly four digits. -/
def parseYear4 : List Char → Option (Nat × List Char)
  | a :: b :: c :: e :: rest =>
    if a.isDigit && b.isDigit && c.isDigit && e.isDigit then
      some (digitVal a * 1000 + digitVal b * 100 + digitVal c * 10 +
        digitVal e, rest)
    else none
  | _ => none

/-- %m in strptime (the regex alternatives 1[0-2], 0[1-9], [1-9]); committing
to a two-digit match is safe because the next format character is never a
digit. -/
def parseMonth : List Char → Option (Nat × List Char)
  | c1 :: c2 :: rest =>
    if c1 = '1' && '0' ≤ c2 && c2 ≤ '2' then some (10 + digitVal c2, rest)
    else if c1 = '0' && '1' ≤ c2 && c2 ≤ '9' then some (digitVal c2, rest)
    else if '1' ≤ c1 && c1 ≤ '9' then some (digitVal c1, c2 :: rest)
    else none
  | [c1] => if '1' ≤ c1 && c1 ≤ '9' then some (digitVal c1, []) else none
  | [] => none

/-- %d in strptime (3[01], [12] then a digit, 0[1-9], [1-9]). -/
def parseDay : List Char → Option (Nat × List Char)
  | c1 :: c2 :: rest =>
    if c1 = '3' && ('0' = c2 || c2 = '1') then some (30 + digitVal c2, rest)
    else if ('1' = c1 || c1 = '2') && c2.isDigit then
      some (digitVal c1 * 10 + digitVal c2, rest)
    else if c1 = '0' && '1' ≤ c2 && c2 ≤ '9' then some (digitVal c2, rest)
    else if '1' ≤ c1 && c1 ≤ '9' then some (digitVal c1, c2 :: rest)
    else none
  | [c1] => if '1' ≤ c1 && c1 ≤ '9' then some (digitVal c1, []) else none
  | [] => none

/-- %H in strptime (2[0-3], [0-1] then a digit, a single digit). -/
def parseHour : List Char → Option (Nat × List Char)
  | c1 :: c2 :: rest =>
    if c1 = '2' && '0' ≤ c2 && c2 ≤ '3' then some (20 + digitVal c2, rest)
    else if ('0' = c1 || c1 = '1') && c2.isDigit then
      some (digitVal c1 * 10 + digitVal c2, rest)
    else if c1.isDigit then some (digitVal c1, c2 :: rest)
    else none
  | [c1] => if c1.isDigit then some (digitVal c1, []) else none
  | [] => none

/-- %M in strptime ([0-5] then a digit, a single digit). -/
def parseMinute : List Char → Option (Nat × List Char)
  | c1 :: c2 :: rest =>
    if '0' ≤ c1 && c1 ≤ '5' && c2.isDigit then
      some (digitVal c1 * 10 + digitVal c2, rest)
    else if c1.isDigit then some (digitVal c1, c2 :: rest)
    else none
  | [c1] => if c1.isDigit then some (digitVal c1, []) else none
  | [] => none

/-- Whitespace by the re module's ASCII rules, used for the blank in the
date format (strptime turns format whitespace into a one-or-more match). -/
def reIsSpace (c : Char) : Bool :=
  c = ' ' || c = '\t' || c = '\n' || c = '\r' || c = '\x0b' || c = '\x0c'

def parseSpaces1 : List Char → Option (List Char)
  | c :: rest => if reIsSpace c then some (rest.dropWhile reIsSpace) else none
  | [] => none

def parseLit (c : Char) : List Char → Option (List Char)
  | c0 :: rest => if c0 = c then some rest else none
  | [] => none

def isLeapYear (y : Nat) : Bool := y % 4 = 0 && (y % 100 ≠ 0 || y % 400 = 0)

def daysInMonth (y m : Nat) : Nat :=
  if m = 2 then (if isLeapYear y then 29 else 28)
  else if m = 4 || m = 6 || m = 9 || m = 11 then 30
  else 31

/-- datetime.strptime(s, B2F_DATE_FORMAT) with B2F_DATE_FORMAT =
"%Y/%m/%d %H:%M" (src/b2f.py lines 19 and 78): field-by-field match of the
pattern, full consumption of the input, then the datetime constructor's
range checks (year at least 1, day within the month). none models the
ValueError. -/
def strptimeB2F (s : String) : Option PyDateTime := do
  let (y, r1) ← parseYear4 s.data
  let r2 ← parseLit '/' r1
  let (mo, r3) ← parseMonth r2
  let r4 ← parseLit '/' r3
  let (d, r5) ← parseDay r4
  let r6 ← parseSpaces1 r5
  let (h, r7) ← parseHour r6
  let r8 ← parseLit ':' r7
  let (mi, r9) ← parseMinute r8
  if r9 = [] && 1 ≤ y && 1 ≤ d && d ≤ daysInMonth y mo then
    some ⟨y, mo, d, h, mi⟩
  else none

def padNum (width n : Nat) : List Char :=
  let s := (Nat.repr n).data
  List.replicate (width - s.length) '0' ++ s

/-- datetime.strftime with "%Y/%m/%d %H:%M" (src/b2f.py line 95):
zero-padded fields. -/
def strftimeB2F (d : PyDateTime) : String :=
  String.mk (padNum 4 d.year ++ ['/'] ++ padNum 2 d.month ++ ['/'] ++
    padNum 2 d.day ++ [' '] ++ padNum 2 d.hour ++ [':'] ++ padNum 2 d.minute)

/-- The B2FMessage dataclass (src/b2f.py lines 22-34). -/
structure B2FMessage where
  mid : String
  date : PyDateTime
  type : Option String
  from_ : String
  /-- the source's field is named to; Lean reserves that token. -/
  to_ : List String
  cc : List String
  subject : String
  mbo : String
  extra_headers : List (String × List String)
  body : String
  files : List (String × List Nat)
deriving DecidableEq, Repr

/-- The attachment loop of B2FMessage.parse (src/b2f.py lines 63-70): each
File header value splits on the first space into a length token and a name;
the content is the Python slice [file_offset, file_offset + length), and the
offset then advances by length + 2. -/
def parseFilesLoop : List String → List Nat → Int →
    Except PErr (List (String × List Nat))
  | [], _, _ => .ok []
  | entry :: rest, contents, fileOffset =>
    let p := pyPartition3 entry.data [' ']
    match pyInt p.1 with
    | none => .error .invalidFileLength
    | some l =>
      let fileEnd := fileOffset + l
      match parseFilesLoop rest contents (fileEnd + 2) with
      | .error e => .error e
      | .ok fs => .ok ((String.mk p.2.2, pySlice contents fileOffset fileEnd) :: fs)

/-- The byte slice before the first CRLFCRLF (Python partition semantics:
the whole input when the separator is absent) - src/b2f.py line 38. -/
def headerBlockOf (data : List Nat) : List Nat :=
  (pyPartition3 data [13, 10, 13, 10]).1

/-- The byte slice after the first CRLFCRLF (empty when absent) -
src/b2f.py line 38. -/
def contentsOf (data : List Nat) : List Nat :=
  (pyPartition3 data [13, 10, 13, 10]).2.2

/-- The body of B2FMessage.parse once the headers dict is built (src/b2f.py
lines 48-88), with the statements in the source's evaluation order; every
match arm corresponds to a Python exception escaping parse. -/
def parseWithHeaders (headers : List (String × List String))
    (contents : List Nat) : Except PErr B2FMessage :=
  let cf := casefoldedHeaders headers
  match get_single_header cf "body" with
  | .error e => .error e
  | .ok bodyLenStr =>
    match pyInt bodyLenStr.data with
    | none => .error .invalidBodyLength
    | some bodyLength =>
      match (if (assocFind cf "content-type").isSome then
          get_single_header cf "content-type" else .ok "iso-8859-1") with
      | .error e => .error e
      | .ok contentType =>
        match decodeCharset contentType (pySliceTo contents bodyLength) with
        | .error e => .error e
        | .ok bodyChars =>
          match assocFind cf "file" with
          | none => .error (.missingHeader "file")
          | some fileEntries =>
            match parseFilesLoop fileEntries contents (bodyLength + 2) with
            | .error e => .error e
            | .ok files =>
              let extra := headers.filter (fun kv =>
                ¬ KNOWN_B2F_HEADERS.contains (pyCasefold kv.1))
              match get_single_header cf "mid" with
              | .error e => .error e
              | .ok mid =>
                match get_single_header cf "date" with
                | .error e => .error e
                | .ok dateStr =>
                  match strptimeB2F dateStr with
                  | none => .error .invalidDate
                  | some date =>
                    match (if (assocFind cf "type").isSome then
                        (get_single_header cf "type").map some
                      else .ok none) with
                    | .error e => .error e
                    | .ok type? =>
                      match get_single_header cf "from" with
                      | .error e => .error e
                      | .ok from_ =>
                        match assocFind cf "to" with
                        | none => .error (.missingHeader "to")
                        | some to_ =>
                          let cc := (assocFind cf "cc").getD []
                          match get_single_header cf "subject" with
                          | .error e => .error e
                          | .ok subject =>
                            match get_single_header cf "mbo" with
                            | .error e => .error e
                            | .ok mbo =>
                              .ok { mid := mid, date := date, type := type?,
                                    from_ := from_, to_ := to_, cc := cc,
                                    subject := subject, mbo := mbo,
                                    extra_headers := extra,
                                    body := String.mk bodyChars,
                                    files := files }

/-- B2FMessage.parse between the CRLFCRLF split and the headers dict
(src/b2f.py lines 40-46): strict ASCII decode of the header slice, then the
line-accumulation loop. -/
def parseParts (headerData contents : List Nat) : Except PErr B2FMessage :=
  match asciiDecodeCore headerData with
  | none => .error .invalidHeaderEncoding
  | some headerStr =>
    parseWithHeaders (accumHeaders (pySplitlines headerStr)) contents

/-- B2FMessage.parse (src/b2f.py lines 36-88). -/
def parse (data : List Nat) : Except PErr B2FMessage :=
  parseParts (headerBlockOf data) (contentsOf data)

/-- The headers dict parse builds for a given raw input (none when the
header slice is not ASCII); the lens used to state header-level
hypotheses about raw inputs. -/
def headersOf (data : List Nat) : Option (List (String × List String)) :=
  (asciiDecodeCore (headerBlockOf data)).map
    (fun cs => accumHeaders (pySplitlines cs))

/-- Encode-side failure: the single exception type (UnicodeEncodeError)
raised by the .encode("ascii") calls in B2FMessage.to_lines. -/
inductive EErr where
  | unicodeEncodeError
deriving DecidableEq, Repr

/-- Strict ASCII encoding: every char must be below 0x80. -/
def asciiEncodeCore : List Char → Option (List Nat)
  | [] => some []
  | c :: rest =>
    if c.toNat < 128 then (asciiEncodeCore rest).map (c.toNat :: ·) else none

/-- The heterogeneous values of the headers dict literal in
B2FMessage.to_lines (src/b2f.py lines 93-107): str, None, int, list of str. -/
inductive HVal where
  | str (v : String)
  | vnone
  | num (n : Nat)
  | strs (vs : List String)
deriving DecidableEq, Repr

/-- The base entries of that dict literal, in source order
(src/b2f.py lines 94-105). -/
def baseHeaders (m : B2FMessage) (bodyLen : Nat) : List (String × HVal) :=
  [("Mid", .str m.mid),
   ("Date", .str (strftimeB2F m.date)),
   ("Type", match m.type with | some t => .str t | none => .vnone),
   ("From", .str m.from_),
   ("To", .strs m.to_),
   ("Cc", .strs m.cc),
   ("Subject", .str m.subject),
   ("Mbo", .str m.mbo),
   ("Body", .num bodyLen),
   ("File", .strs (m.files.map (fun f => toString f.2.length ++ " " ++ f.1)))]

/-- The **self.extra_headers part of the dict literal: each entry overwrites
an existing exact key in place or is appended. -/
def dictMergeH (base : List (String × HVal))
    (extra : List (String × List String)) : List (String × HVal) :=
  extra.foldl (fun d kv => dictSet d kv.1 (.strs kv.2)) base

/-- del headers["Type"] when its value is None (src/b2f.py lines 108-109). -/
def delTypeIfNone (hs : List (String × HVal)) : List (String × HVal) :=
  if assocFind hs "Type" = some .vnone then hs.filter (fun kv => kv.1 ≠ "Type")
  else hs

/-- The text Python's f-string produces for a non-list dict value. -/
def hvalText : HVal → String
  | .str v => v
  | .vnone => "None"
  | .num n => toString n
  | .strs _ => ""

/-- f"{header_name}: {value}".encode("ascii") for one emitted line. -/
def encLine (name value : String) : Option (List Nat) :=
  asciiEncodeCore (name.data ++ [':', ' '] ++ value.data)

/-- The list branch of the emission loop: one line per value. -/
def encLines1 (name : String) : List String → Option (List (List Nat))
  | [] => some []
  | v :: vs =>
    match encLine name v with
    | none => none
    | some l => (encLines1 name vs).map (l :: ·)

/-- The emission loop of B2FMessage.to_lines (src/b2f.py lines 110-115):
a list value yields one line per element, any other value one line. -/
def emitLines : List (String × HVal) → Option (List (List Nat))
  | [] => some []
  | (name, .strs vs) :: rest =>
    match encLines1 name vs with
    | none => none
    | some ls => (emitLines rest).map (ls ++ ·)
  | (name, v) :: rest =>
    match encLine name (hvalText v) with
    | none => none
    | some l => (emitLines rest).map (l :: ·)

/-- The headers dict literal of B2FMessage.to_lines after the extra-header
merge and the Type deletion (src/b2f.py lines 93-109). -/
def headersDict (m : B2FMessage) (bodyLen : Nat) : List (String × HVal) :=
  delTypeIfNone (dictMergeH (baseHeaders m bodyLen) m.extra_headers)

/-- B2FMessage.to_lines (src/b2f.py lines 90-121): encode the body as ASCII,
build the headers dict (base entries, the extra headers merged in, Type
deleted when None), emit one chunk per header line, then the literal CRLF
chunk, the body chunk, and one chunk per attachment content. Python yields
the chunks lazily and raises UnicodeEncodeError at the offending chunk;
the Except models the exception escaping the full iteration. -/
def to_lines (m : B2FMessage) : Except EErr (List (List Nat)) :=
  match asciiEncodeCore m.body.data with
  | none => .error .unicodeEncodeError
  | some body =>
    match emitLines (headersDict m body.length) with
    | none => .error .unicodeEncodeError
    | some headerLines =>
      .ok (headerLines ++ [[13, 10]] ++ [body] ++ m.files.map (fun f => f.2))

/-- Python bytes sep.join. -/
def joinBytes (sep : List Nat) : List (List Nat) → List Nat
  | [] => []
  | [x] => x
  | x :: y :: rest => x ++ sep ++ joinBytes sep (y :: rest)

/-- B2FMessage.to_bytes (src/b2f.py lines 123-124):
CRLF-join of the chunks of to_lines. -/
def to_bytes (m : B2FMessage) : Except EErr (List Nat) :=
  (to_lines m).map (joinBytes [13, 10])

/-- The bytes of an ASCII Lean string literal, for concrete inputs. -/
def strBytes (s : String) : List Nat := s.data.map Char.toNat


deriving instance DecidableEq for Except

/-- All characters of a string are ASCII. -/
def strAscii (s : String) : Bool := s.data.all (fun c => c.toNat < 128)

/-- The emission of one headers-dict entry raises no UnicodeEncodeError:
every line it yields (name plus value) is ASCII; a list value with no
elements yields no lines, so nothing is checked. -/
def entryAscii (kv : String × HVal) : Bool :=
  match kv.2 with
  | .strs vs => vs.all (fun v => strAscii kv.1 && strAscii v)
  | v => strAscii kv.1 && strAscii (hvalText v)

/-- The encoder accepts the message: the body and every emitted header line
are ASCII. -/
def encodeAllAscii (m : B2FMessage) : Bool :=
  strAscii m.body && (headersDict m m.body.data.length).all entryAscii

/-- The value list the casefolded_headers dict associates to a casefolded
name: the values of the last distinct original casing, in order of first
appearance (the dict comprehension of src/b2f.py line 48 overwrites). -/
def lastCasefoldValues (hs : List (String × List String)) (n : String) :
    Option (List String) :=
  (hs.reverse.find? (fun kv => pyCasefold kv.1 == n)).map (fun kv => kv.2)

/-- Every File header's declared slice (split and int-parsed as the source
does) is a well-formed range inside the contents. -/
def fileRangesFit : List String → Nat → Int → Bool
  | [], _, _ => true
  | e :: rest, clen, off =>
    match pyInt (pyPartition3 e.data [' ']).1 with
    | none => false
    | some l =>
      decide (0 ≤ off) && decide (0 ≤ l) && decide (off + l ≤ (clen : Int)) &&
        fileRangesFit rest clen (off + l + 2)

/-- The lengths the File headers declare (0 for an unparsable token, which
fileRangesFit rules out). -/
def declaredLens : List String → List Nat
  | [] => []
  | e :: rest =>
    (match pyInt (pyPartition3 e.data [' ']).1 with
     | some l => l.toNat
     | none => 0) :: declaredLens rest

/-- Modelled from the spec: the header lines in the order claim C8 states -
Mid, Date, Type (omitted when absent), To, Cc, Subject, Mbo, Body, File,
then the extra headers - with no From line. -/
def claimOrderLines (m : B2FMessage) : List (List Nat) :=
  [strBytes ("Mid: " ++ m.mid), strBytes ("Date: " ++ strftimeB2F m.date)] ++
  (match m.type with | some t => [strBytes ("Type: " ++ t)] | none => []) ++
  m.to_.map (fun v => strBytes ("To: " ++ v)) ++
  m.cc.map (fun v => strBytes ("Cc: " ++ v)) ++
  [strBytes ("Subject: " ++ m.subject), strBytes ("Mbo: " ++ m.mbo),
   strBytes ("Body: " ++ toString m.body.data.length)] ++
  m.files.map (fun f =>
    strBytes ("File: " ++ toString f.2.length ++ " " ++ f.1)) ++
  m.extra_headers.flatMap (fun kv =>
    kv.2.map (fun v => strBytes (kv.1 ++ ": " ++ v)))

/-- Modelled from the spec: the header lines in the order of spec section 4.4
step 2, which places a From line between Type and To. -/
def specOrderLines (m : B2FMessage) : List (List Nat) :=
  [strBytes ("Mid: " ++ m.mid), strBytes ("Date: " ++ strftimeB2F m.date)] ++
  (match m.type with | some t => [strBytes ("Type: " ++ t)] | none => []) ++
  [strBytes ("From: " ++ m.from_)] ++
  m.to_.map (fun v => strBytes ("To: " ++ v)) ++
  m.cc.map (fun v => strBytes ("Cc: " ++ v)) ++
  [strBytes ("Subject: " ++ m.subject), strBytes ("Mbo: " ++ m.mbo),
   strBytes ("Body: " ++ toString m.body.data.length)] ++
  m.files.map (fun f =>
    strBytes ("File: " ++ toString f.2.length ++ " " ++ f.1)) ++
  m.extra_headers.flatMap (fun kv =>
    kv.2.map (fun v => strBytes (kv.1 ++ ": " ++ v)))

/-- The full chunk sequence the claimed (From-less) order would produce. -/
def claimOrderOutput (m : B2FMessage) : List (List Nat) :=
  claimOrderLines m ++ [[13, 10]] ++ [strBytes m.body] ++
    m.files.map (fun f => f.2)

/-- The full chunk sequence under the spec order including From. -/
def specOrderOutput (m : B2FMessage) : List (List Nat) :=
  specOrderLines m ++ [[13, 10]] ++ [strBytes m.body] ++
    m.files.map (fun f => f.2)

/-! Concrete inputs and messages used by the claims. -/

/-- Concrete scenario 1 of the spec: no File header. -/
def scen1 : List Nat := strBytes
  "Mid: 123\r\nDate: 2024/01/15 10:30\r\nFrom: A\r\nTo: B\r\nSubject: S\r\nMbo: M\r\nBody: 5\r\n\r\nHELLO"

/-- The headers dict parse builds for scen1. -/
def scen1Headers : List (String × List String) :=
  [("Mid", ["123"]), ("Date", ["2024/01/15 10:30"]), ("From", ["A"]),
   ("To", ["B"]), ("Subject", ["S"]), ("Mbo", ["M"]), ("Body", ["5"])]

/-- Concrete scenario 3 of the spec: two attachments after a 4-byte body. -/
def scen3 : List Nat := strBytes
  "Mid: 123\r\nDate: 2024/01/15 10:30\r\nFrom: A\r\nTo: B\r\nSubject: S\r\nMbo: M\r\nBody: 4\r\nFile: 3 a.txt\r\nFile: 3 b.txt\r\n\r\nBODY\r\nAAA\r\nBBB"

/-- The message scenario 3 decodes to. -/
def scen3Msg : B2FMessage :=
  { mid := "123", date := ⟨2024, 1, 15, 10, 30⟩, type := none, from_ := "A",
    to_ := ["B"], cc := [], subject := "S", mbo := "M", extra_headers := [],
    body := "BODY", files := [("a.txt", strBytes "AAA"), ("b.txt", strBytes "BBB")] }

/-- Two To lines whose names differ only in casing. -/
def caseInput : List Nat := strBytes
  "Mid: 123\r\nDate: 2024/01/15 10:30\r\nFrom: A\r\nTo: B\r\nTO: C\r\nSubject: S\r\nMbo: M\r\nBody: 0\r\nFile: 0 x\r\n\r\n"

/-- What the code decodes caseInput to: only the later casing's To value. -/
def caseMsg : B2FMessage :=
  { mid := "123", date := ⟨2024, 1, 15, 10, 30⟩, type := none, from_ := "A",
    to_ := ["C"], cc := [], subject := "S", mbo := "M", extra_headers := [],
    body := "", files := [("x", [])] }

/-- A declared File length of 10 with only 3 content bytes available. -/
def overrunInput : List Nat := strBytes
  "Mid: 123\r\nDate: 2024/01/15 10:30\r\nFrom: A\r\nTo: B\r\nSubject: S\r\nMbo: M\r\nBody: 4\r\nFile: 10 a.txt\r\n\r\nBODY\r\nAAA"

/-- What the code decodes overrunInput to: a silently clamped attachment. -/
def overrunMsg : B2FMessage :=
  { mid := "123", date := ⟨2024, 1, 15, 10, 30⟩, type := none, from_ := "A",
    to_ := ["B"], cc := [], subject := "S", mbo := "M", extra_headers := [],
    body := "BODY", files := [("a.txt", strBytes "AAA")] }

/-- An input with no CR at all, hence no CRLFCRLF separator; the header
lines use bare LF, which splitlines still splits. -/
def noSepInput : List Nat := strBytes
  "Mid: 123\nDate: 2024/01/15 10:30\nFrom: A\nTo: B\nSubject: S\nMbo: M\nBody: 0\nFile: 0 x"

/-- What the code decodes noSepInput to. -/
def noSepMsg : B2FMessage :=
  { mid := "123", date := ⟨2024, 1, 15, 10, 30⟩, type := none, from_ := "A",
    to_ := ["B"], cc := [], subject := "S", mbo := "M", extra_headers := [],
    body := "", files := [("x", [])] }

/-- Two Mid lines in one casing followed by a third in another casing. -/
def dupMidInput : List Nat := strBytes
  "Mid: 1\r\nMid: 2\r\nMID: 9\r\nDate: 2024/01/15 10:30\r\nFrom: A\r\nTo: B\r\nSubject: S\r\nMbo: M\r\nBody: 0\r\nFile: 0 x\r\n\r\n"

/-- What the code decodes dupMidInput to: the third casing's value wins. -/
def dupMidMsg : B2FMessage :=
  { mid := "9", date := ⟨2024, 1, 15, 10, 30⟩, type := none, from_ := "A",
    to_ := ["B"], cc := [], subject := "S", mbo := "M", extra_headers := [],
    body := "", files := [("x", [])] }

/-- Two Mid lines in a single casing and nothing else. -/
def dupMidUniform : List Nat := strBytes "Mid: 1\r\nMid: 2\r\n\r\n"

/-- The headers dict parse builds for dupMidUniform. -/
def dupMidUniformHeaders : List (String × List String) := [("Mid", ["1", "2"])]

/-- Two Content-Type lines in a single casing and nothing else. -/
def dupCTInput : List Nat :=
  strBytes "Content-Type: utf-8\r\nContent-Type: ascii\r\nBody: 0\r\n\r\n"

/-- The headers dict parse builds for dupCTInput. -/
def dupCTHeaders : List (String × List String) :=
  [("Content-Type", ["utf-8", "ascii"]), ("Body", ["0"])]

/-- A message satisfying the section-3 invariants, with no attachments. -/
def rtM1 : B2FMessage :=
  { mid := "123", date := ⟨2024, 1, 15, 10, 30⟩, type := none, from_ := "A",
    to_ := ["B"], cc := [], subject := "S", mbo := "M", extra_headers := [],
    body := "HELLO", files := [] }

/-- A message satisfying the section-3 invariants, with an empty body and
one attachment. -/
def rtM2 : B2FMessage :=
  { mid := "123", date := ⟨2024, 1, 15, 10, 30⟩, type := none, from_ := "A",
    to_ := ["B"], cc := [], subject := "S", mbo := "M", extra_headers := [],
    body := "", files := [("a.txt", strBytes "CAT")] }

/-- What decoding the encoding of rtM2 actually returns: the attachment
bytes are shifted two positions left by the encoder's extra CRLF. -/
def rtM2Decoded : B2FMessage :=
  { rtM2 with files := [("a.txt", [13, 10, 67])] }

/-- encode-then-decode, the round-trip composite of the two directions. -/
def roundTrip (m : B2FMessage) : Except EErr (Except PErr B2FMessage) :=
  (to_bytes m).map parse

/-- A message whose body is ASCII but whose subject is not. -/
def nonAsciiSubjectMsg : B2FMessage :=
  { mid := "123", date := ⟨2024, 1, 15, 10, 30⟩, type := none, from_ := "A",
    to_ := ["B"], cc := [], subject := "é", mbo := "M", extra_headers := [],
    body := "HI", files := [] }

/-- A message exercising every header kind of the encoder. -/
def orderMsg : B2FMessage :=
  { mid := "123", date := ⟨2024, 1, 15, 10, 30⟩, type := some "Private",
    from_ := "A", to_ := ["B1", "B2"], cc := ["C1"], subject := "S",
    mbo := "M", extra_headers := [("X-Custom", ["v1", "v2"])], body := "HI",
    files := [("a.txt", strBytes "CAT")] }

/-- The lines one headers-dict entry yields when every character is ASCII
(the unchecked rendering of the emission loop). -/
def entryLines (kv : String × HVal) : List (List Nat) :=
  match kv.2 with
  | .strs vs => vs.map (fun v => strBytes (kv.1 ++ ": " ++ v))
  | v => [strBytes (kv.1 ++ ": " ++ hvalText v)]

/-! ## Helper lemmas -/

theorem assocFind_dictSet {β : Type} (d : List (String × β)) (k : String)
    (v : β) (n : String) :
    assocFind (dictSet d k v) n = if k = n then some v else assocFind d n := by
  induction d with
  | nil => simp [dictSet, assocFind]
  | cons kv rest ih =>
    obtain ⟨k0, v0⟩ := kv
    by_cases h1 : k0 = k
    · subst h1
      by_cases h2 : k0 = n <;> simp [dictSet, assocFind, h2]
    · by_cases h2 : k0 = n
      · subst h2
        have hkn : ¬ k = k0 := fun h => h1 h.symm
        simp [dictSet, assocFind, h1, hkn]
      · simp [dictSet, assocFind, h1, h2, ih]

theorem assocFind_foldl_dictSet (hs : List (String × List String))
    (d : List (String × List String)) (n : String) :
    assocFind (hs.foldl (fun d2 kv => dictSet d2 (pyCasefold kv.1) kv.2) d) n =
      (hs.reverse.find? (fun kv => pyCasefold kv.1 == n)).elim
        (assocFind d n) (fun kv => some kv.2) := by
  induction hs generalizing d with
  | nil => simp
  | cons kv rest ih =>
    obtain ⟨k0, vs0⟩ := kv
    rw [List.foldl_cons, ih]
    rw [List.reverse_cons, List.find?_append]
    cases hf : rest.reverse.find? (fun kv => pyCasefold kv.1 == n) with
    | some kv2 => simp
    | none =>
      simp only [Option.none_or, Option.elim]
      rw [assocFind_dictSet]
      by_cases hk : pyCasefold k0 = n
      · simp [List.find?, hk]
      · have : (pyCasefold k0 == n) = false := by simpa using hk
        simp [List.find?, this, hk]

/-- The casefolded_headers lookup yields the values of the last distinct
original casing. -/
theorem assocFind_casefolded (hs : List (String × List String)) (n : String) :
    assocFind (casefoldedHeaders hs) n = lastCasefoldValues hs n := by
  rw [casefoldedHeaders, assocFind_foldl_dictSet]
  unfold lastCasefoldValues
  cases hs.reverse.find? (fun kv => pyCasefold kv.1 == n) <;>
    simp [assocFind]

theorem filter_single_find_reverse {α : Type} (p : α → Bool) (l : List α)
    (x : α) (h : l.filter p = [x]) : l.reverse.find? p = some x := by
  induction l with
  | nil => simp at h
  | cons a rest ih =>
    rw [List.filter_cons] at h
    by_cases hp : p a
    · rw [if_pos hp] at h
      obtain ⟨rfl, hrest⟩ : a = x ∧ rest.filter p = [] := by
        simpa using h
      have hnone : rest.reverse.find? p = none := by
        rw [List.find?_eq_none]
        intro y hy
        exact List.filter_eq_nil_iff.mp hrest y (List.mem_reverse.mp hy)
      simp [List.reverse_cons, List.find?_append, hnone, List.find?, hp]
    · rw [if_neg hp] at h
      simp [List.reverse_cons, List.find?_append, ih h]

theorem lastCasefoldValues_some (hs : List (String × List String))
    (n : String) (vs : List String) (h : lastCasefoldValues hs n = some vs) :
    ∃ k, (k, vs) ∈ hs ∧ pyCasefold k = n := by
  unfold lastCasefoldValues at h
  cases hf : hs.reverse.find? (fun kv => pyCasefold kv.1 == n) with
  | none => rw [hf] at h; simp at h
  | some kv =>
    rw [hf] at h
    have hv : kv.2 = vs := by simpa using h
    have hpv : (pyCasefold kv.1 == n) = true := by
      have := List.find?_some hf
      simpa using this
    have hm : kv ∈ hs := List.mem_reverse.mp (List.mem_of_find?_eq_some hf)
    refine ⟨kv.1, ?_, by simpa using hpv⟩
    rw [← hv]
    exact hm

theorem get_single_header_ok (cf : List (String × List String))
    (name v : String) (h : get_single_header cf name = Except.ok v) :
    assocFind cf (pyCasefold name) = some [v] := by
  unfold get_single_header at h
  cases hf : assocFind cf (pyCasefold name) with
  | none => rw [hf] at h; simp at h
  | some vs =>
    rw [hf] at h
    rcases vs with _ | ⟨v0, _ | ⟨v1, rest⟩⟩
    · simp at h
    · have : v0 = v := by simpa using h
      rw [this]
    · simp at h

theorem parse_ok_toWithHeaders (data : List Nat)
    (hs : List (String × List String)) (m : B2FMessage)
    (h1 : headersOf data = some hs) (hp : parse data = Except.ok m) :
    parseWithHeaders hs (contentsOf data) = Except.ok m := by
  unfold headersOf at h1
  unfold parse parseParts at hp
  cases hx : asciiDecodeCore (headerBlockOf data) with
  | none => rw [hx] at h1; simp at h1
  | some cs =>
    rw [hx] at h1 hp
    simp at h1
    simp only [] at hp
    rw [← h1]
    exact hp

/-- Everything a successful parseWithHeaders implies about the
casefolded-header lookups it performed. -/
theorem parseWithHeaders_ok_facts (headers : List (String × List String))
    (contents : List Nat) (m : B2FMessage)
    (hp : parseWithHeaders headers contents = Except.ok m) :
    (∃ v, get_single_header (casefoldedHeaders headers) "body" = .ok v) ∧
    ((assocFind (casefoldedHeaders headers) "content-type").isSome →
      ∃ v, get_single_header (casefoldedHeaders headers) "content-type" = .ok v) ∧
    (∃ e, assocFind (casefoldedHeaders headers) "file" = some e) ∧
    (∃ v, get_single_header (casefoldedHeaders headers) "mid" = .ok v) ∧
    (∃ v, get_single_header (casefoldedHeaders headers) "date" = .ok v) ∧
    (∃ v, get_single_header (casefoldedHeaders headers) "from" = .ok v) ∧
    (∃ v, assocFind (casefoldedHeaders headers) "to" = some v) ∧
    (∃ v, get_single_header (casefoldedHeaders headers) "subject" = .ok v) ∧
    (∃ v, get_single_header (casefoldedHeaders headers) "mbo" = .ok v) := by
  simp only [parseWithHeaders] at hp
  rcases h1 : get_single_header (casefoldedHeaders headers) "body" with e | v1
  · rw [h1] at hp; simp at hp
  rw [h1] at hp
  simp only [] at hp
  rcases h2 : pyInt v1.data with _ | bodyLength
  · rw [h2] at hp; simp at hp
  rw [h2] at hp
  simp only [] at hp
  rcases h3 : (if (assocFind (casefoldedHeaders headers) "content-type").isSome
      then get_single_header (casefoldedHeaders headers) "content-type"
      else Except.ok "iso-8859-1") with e | ct
  · rw [h3] at hp; simp at hp
  rw [h3] at hp
  simp only [] at hp
  rcases h4 : decodeCharset ct (pySliceTo contents bodyLength) with e | bodyChars
  · rw [h4] at hp; simp at hp
  rw [h4] at hp
  simp only [] at hp
  rcases h5 : assocFind (casefoldedHeaders headers) "file" with _ | fileEntries
  · rw [h5] at hp; simp at hp
  rw [h5] at hp
  simp only [] at hp
  rcases h6 : parseFilesLoop fileEntries contents (bodyLength + 2) with e | files
  · rw [h6] at hp; simp at hp
  rw [h6] at hp
  simp only [] at hp
  rcases h7 : get_single_header (casefoldedHeaders headers) "mid" with e | mid
  · rw [h7] at hp; simp at hp
  rw [h7] at hp
  simp only [] at hp
  rcases h8 : get_single_header (casefoldedHeaders headers) "date" with e | dateStr
  · rw [h8] at hp; simp at hp
  rw [h8] at hp
  simp only [] at hp
  rcases h9 : strptimeB2F dateStr with _ | date
  · rw [h9] at hp; simp at hp
  rw [h9] at hp
  simp only [] at hp
  rcases h10 : (if (assocFind (casefoldedHeaders headers) "type").isSome
      then (get_single_header (casefoldedHeaders headers) "type").map some
      else Except.ok none) with e | type?
  · rw [h10] at hp; simp at hp
  rw [h10] at hp
  simp only [] at hp
  rcases h11 : get_single_header (casefoldedHeaders headers) "from" with e | from_
  · rw [h11] at hp; simp at hp
  rw [h11] at hp
  simp only [] at hp
  rcases h12 : assocFind (casefoldedHeaders headers) "to" with _ | tov
  · rw [h12] at hp; simp at hp
  rw [h12] at hp
  simp only [] at hp
  rcases h13 : get_single_header (casefoldedHeaders headers) "subject" with e | subject
  · rw [h13] at hp; simp at hp
  rw [h13] at hp
  simp only [] at hp
  rcases h14 : get_single_header (casefoldedHeaders headers) "mbo" with e | mbo
  · rw [h14] at hp; simp at hp
  refine ⟨⟨v1, rfl⟩, ?_, ⟨fileEntries, rfl⟩, ⟨mid, rfl⟩, ⟨dateStr, rfl⟩,
    ⟨from_, rfl⟩, ⟨tov, rfl⟩, ⟨subject, rfl⟩, ⟨mbo, rfl⟩⟩
  intro hSome
  rw [if_pos hSome] at h3
  exact ⟨ct, h3⟩

/-- A single-value retrieval cannot succeed when the casefolded lookup of
the (already casefolded) name holds two or more values. -/
theorem gsh_dup_contra (cf : List (String × List String)) (name : String)
    (vs : List String) (hpc : pyCasefold name = name)
    (hAF : assocFind cf name = some vs) (h3 : 2 ≤ vs.length)
    (hone : ∃ v, get_single_header cf name = Except.ok v) : False := by
  obtain ⟨v, hv⟩ := hone
  have hshape := get_single_header_ok _ _ _ hv
  rw [hpc, hAF] at hshape
  have : vs = [v] := by simpa using hshape
  rw [this] at h3
  simp at h3

/-! ## Claim theorems -/

set_option maxRecDepth 8000

/-- Claim C1 (code_bug): the round trip parse(to_bytes(m)) == m fails on the
code. to_bytes joins the chunks of to_lines with CRLF, but to_lines yields a
literal CRLF chunk as the header/body separator, so the encoding carries one
extra CRLF before the body; parse also requires a File header. For the
invariant-satisfying message rtM1 (no attachments) the re-parse fails
outright, and for rtM2 (one attachment) it succeeds but returns a message
whose attachment bytes are shifted by two. -/
theorem round_trip_broken_code_bug :
    roundTrip rtM1 = Except.ok (Except.error (PErr.missingHeader "file")) ∧
    roundTrip rtM2 = Except.ok (Except.ok rtM2Decoded) ∧
    rtM2Decoded ≠ rtM2 :=
  ⟨by decide, by decide, by decide⟩

/-- Claim C2 (corrected), counterexample: decoding concrete scenario 1,
whose header block has no File header, does not succeed with files = [];
it raises KeyError on the File lookup (the code indexes casefolded_headers
with "file" directly, unlike the cc lookup which uses .get). -/
theorem scen1_no_file_decode_fails_cex :
    parse scen1 = Except.error (PErr.missingHeader "file") := by decide

/-- Claim C2 (corrected), amended: for every input whose header block has no
name that casefolds to "file", decode never returns a Message (so a decoded
Message with files = [] is impossible; only the cc lookup defaults). -/
theorem no_file_header_never_ok (data : List Nat)
    (hs : List (String × List String)) (h1 : headersOf data = some hs)
    (h2 : ∀ kv ∈ hs, pyCasefold kv.1 ≠ "file") :
    ∀ m : B2FMessage, parse data ≠ Except.ok m := by
  intro m hp
  have hw := parse_ok_toWithHeaders _ _ _ h1 hp
  obtain ⟨-, -, ⟨e, hfile⟩, -, -, -, -, -, -⟩ :=
    parseWithHeaders_ok_facts _ _ _ hw
  rw [assocFind_casefolded] at hfile
  obtain ⟨k, hk, hkc⟩ := lastCasefoldValues_some _ _ _ hfile
  exact h2 (k, e) hk hkc

/-- Witness for no_file_header_never_ok at concrete scenario 1. -/
theorem no_file_header_never_ok_witness :
    headersOf scen1 = some scen1Headers ∧
    (∀ kv ∈ scen1Headers, pyCasefold kv.1 ≠ "file") ∧
    parse scen1 ≠ Except.ok noSepMsg :=
  ⟨by decide, by decide,
    no_file_header_never_ok scen1 scen1Headers (by decide) (by decide)
      noSepMsg⟩

/-- Claim C4 (corrected), counterexample: an input with the lines To: B and
TO: C decodes successfully, and the list retrieval used for the to field
returns only the later casing's values, not the merged ["B", "C"]. -/
theorem case_variant_values_not_merged_cex :
    parse caseInput = Except.ok caseMsg ∧ caseMsg.to_ ≠ ["B", "C"] :=
  ⟨by decide, by decide⟩

/-- Claim C4 (corrected), amended: the casefolded lookup used for field
extraction does not merge distinct casings; it sees exactly the value list
of the last distinct original casing (in order of first appearance), because
the casefolded_headers dict comprehension overwrites on key collision. -/
theorem casefold_lookup_last_casing_wins (hs : List (String × List String))
    (n : String) :
    assocFind (casefoldedHeaders hs) n = lastCasefoldValues hs n :=
  assocFind_casefolded hs n

/-- Claim C6 (corrected), counterexample: an input containing no CRLFCRLF
(indeed no CR at all; header lines end in bare LF, which splitlines accepts)
decodes successfully, so no MalformedFraming failure occurs. -/
theorem no_separator_decode_succeeds_cex :
    findSub noSepInput [13, 10, 13, 10] = none ∧
    parse noSepInput = Except.ok noSepMsg :=
  ⟨by decide, by decide⟩

/-- Claim C6 (corrected), amended: when CRLFCRLF does not occur, Python
partition yields the whole buffer as the header slice and empty contents,
and parse simply proceeds on that split (no framing error exists). -/
theorem no_separator_whole_buffer (data : List Nat)
    (h : findSub data [13, 10, 13, 10] = none) :
    parse data = parseParts data [] := by
  simp [parse, headerBlockOf, contentsOf, pyPartition3, h]

/-- Witness for no_separator_whole_buffer at a concrete separator-free
input. -/
theorem no_separator_whole_buffer_witness :
    findSub noSepInput [13, 10, 13, 10] = none ∧
    parse noSepInput = parseParts noSepInput [] :=
  ⟨by decide, no_separator_whole_buffer noSepInput (by decide)⟩

/-- Claim C7 (corrected), counterexample: an input whose header block
contains two Mid lines (plus a later MID line) decodes successfully - the
dict comprehension lets the later casing overwrite the two-valued entry -
so decode does not fail with DuplicateHeader on every such input. -/
theorem two_mid_lines_decode_succeeds_cex :
    parse dupMidInput = Except.ok dupMidMsg := by decide

/-- Claim C7 (corrected), amended: when all header lines whose name
casefolds to one of the required single-valued names (mid, date, from,
subject, mbo) share a single original casing and there are two or more of
them, decode never returns a Message (the single-value retrieval's
assertion on the two-valued list fails whenever reached, and no Message is
produced without reaching it). -/
theorem dup_required_uniform_casing_never_ok (data : List Nat)
    (hs : List (String × List String)) (name k : String) (vs : List String)
    (hn : name ∈ ["mid", "date", "from", "subject", "mbo"])
    (h1 : headersOf data = some hs)
    (h2 : hs.filter (fun kv => pyCasefold kv.1 == name) = [(k, vs)])
    (h3 : 2 ≤ vs.length) :
    ∀ m : B2FMessage, parse data ≠ Except.ok m := by
  intro m hp
  have hw := parse_ok_toWithHeaders _ _ _ h1 hp
  obtain ⟨hbody, hct, hfile, hmid, hdate, hfrom, hto, hsubj, hmbo⟩ :=
    parseWithHeaders_ok_facts _ _ _ hw
  have hAF : assocFind (casefoldedHeaders hs) name = some vs := by
    rw [assocFind_casefolded]
    unfold lastCasefoldValues
    rw [filter_single_find_reverse _ _ _ h2]
    rfl
  fin_cases hn
  · exact gsh_dup_contra _ _ _ (by decide) hAF h3 hmid
  · exact gsh_dup_contra _ _ _ (by decide) hAF h3 hdate
  · exact gsh_dup_contra _ _ _ (by decide) hAF h3 hfrom
  · exact gsh_dup_contra _ _ _ (by decide) hAF h3 hsubj
  · exact gsh_dup_contra _ _ _ (by decide) hAF h3 hmbo

/-- Witness for dup_required_uniform_casing_never_ok at two uniform-cased
Mid lines. -/
theorem dup_required_uniform_casing_never_ok_witness :
    "mid" ∈ ["mid", "date", "from", "subject", "mbo"] ∧
    headersOf dupMidUniform = some dupMidUniformHeaders ∧
    dupMidUniformHeaders.filter
      (fun kv => pyCasefold kv.1 == "mid") = [("Mid", ["1", "2"])] ∧
    2 ≤ (["1", "2"] : List String).length ∧
    parse dupMidUniform ≠ Except.ok rtM1 :=
  ⟨by decide, by decide, by decide, by decide,
    dup_required_uniform_casing_never_ok dupMidUniform dupMidUniformHeaders
      "mid" "Mid" ["1", "2"] (by decide) (by decide) (by decide) (by decide)
      rtM1⟩

/-- Claim C9 (confirmed): concrete scenario 3 - body length 4, two File
headers declaring 3 bytes each, contents BODY CRLF AAA CRLF BBB - decodes
to body "BODY" and attachments a.txt = AAA and b.txt = BBB, exactly as the
cursor arithmetic (advance by declared length plus 2 after every
attachment) prescribes. -/
theorem scenario3_attachment_offsets : parse scen3 = Except.ok scen3Msg := by
  decide

/-- Claim C10 (confirmed): when every header line whose name casefolds to
content-type shares one original casing and there are two or more such
lines, decode never returns a Message: the single-value retrieval used to
select the body charset rejects the two-valued entry whenever reached. -/
theorem dup_content_type_never_ok (data : List Nat)
    (hs : List (String × List String)) (k : String) (vs : List String)
    (h1 : headersOf data = some hs)
    (h2 : hs.filter (fun kv => pyCasefold kv.1 == "content-type") = [(k, vs)])
    (h3 : 2 ≤ vs.length) :
    ∀ m : B2FMessage, parse data ≠ Except.ok m := by
  intro m hp
  have hw := parse_ok_toWithHeaders _ _ _ h1 hp
  obtain ⟨-, hct, -, -, -, -, -, -, -⟩ := parseWithHeaders_ok_facts _ _ _ hw
  have hAF : assocFind (casefoldedHeaders hs) "content-type" = some vs := by
    rw [assocFind_casefolded]
    unfold lastCasefoldValues
    rw [filter_single_find_reverse _ _ _ h2]
    rfl
  exact gsh_dup_contra _ _ _ (by decide) hAF h3 (hct (by rw [hAF]; rfl))

/-- Witness for dup_content_type_never_ok at two uniform-cased Content-Type
lines. -/
theorem dup_content_type_never_ok_witness :
    headersOf dupCTInput = some dupCTHeaders ∧
    dupCTHeaders.filter (fun kv => pyCasefold kv.1 == "content-type") =
      [("Content-Type", ["utf-8", "ascii"])] ∧
    2 ≤ (["utf-8", "ascii"] : List String).length ∧
    parse dupCTInput ≠ Except.ok rtM2 :=
  ⟨by decide, by decide, by decide,
    dup_content_type_never_ok dupCTInput dupCTHeaders "Content-Type"
      ["utf-8", "ascii"] (by decide) (by decide) (by decide) rtM2⟩


theorem pySlice_length {α : Type} (xs : List α) (a b : Int) (ha : 0 ≤ a)
    (hab : a ≤ b) (hb : b ≤ (xs.length : Int)) :
    (pySlice xs a b).length = (b - a).toNat := by
  simp only [pySlice]
  rw [if_neg (by omega : ¬ a < 0), if_neg (by omega : ¬ b < 0)]
  rw [min_eq_left (by omega : a ≤ (xs.length : Int)),
      min_eq_left (by omega : b ≤ (xs.length : Int))]
  by_cases h : a < b
  · rw [if_pos h, List.length_take, List.length_drop]
    omega
  · rw [if_neg h]
    simp only [List.length_nil]
    omega

/-- Claim C5 (corrected), counterexample: a File header declaring 10 bytes
over contents holding only 3 decodes successfully to a silently clamped
3-byte attachment; no TruncatedAttachment failure exists in the code
(Python slicing clamps out-of-range bounds). -/
theorem overrun_silently_truncated_cex :
    parse overrunInput = Except.ok overrunMsg ∧
    overrunMsg.files.map (fun f => f.2.length) = [3] :=
  ⟨by decide, by decide⟩

/-- Claim C5 (corrected), amended: length fidelity holds exactly when every
declared slice is a well-formed range inside the contents; then each
decoded attachment's byte length equals its declared length. On an
out-of-range slice the loop does not fail - it silently clamps (see the
counterexample); the only failure is an unparsable length token. -/
theorem file_lengths_exact_when_in_bounds (entries : List String)
    (contents : List Nat) (off : Int) (files : List (String × List Nat))
    (hp : parseFilesLoop entries contents off = Except.ok files)
    (hf : fileRangesFit entries contents.length off = true) :
    files.map (fun f => f.2.length) = declaredLens entries := by
  induction entries generalizing off files with
  | nil =>
    simp only [parseFilesLoop] at hp
    have : files = [] := by simpa using hp.symm
    subst this
    simp [declaredLens]
  | cons e rest ih =>
    simp only [parseFilesLoop] at hp
    simp only [fileRangesFit] at hf
    rcases hInt : pyInt (pyPartition3 e.data [' ']).1 with _ | l
    · rw [hInt] at hf; simp at hf
    rw [hInt] at hp hf
    simp only [] at hp
    simp only [Bool.and_eq_true, decide_eq_true_eq] at hf
    obtain ⟨⟨⟨h1, h2⟩, h3⟩, h4⟩ := hf
    rcases hrec : parseFilesLoop rest contents (off + l + 2) with err | fs
    · rw [hrec] at hp; simp at hp
    rw [hrec] at hp
    simp only [] at hp
    have hfiles : files = (String.mk (pyPartition3 e.data [' ']).2.2,
        pySlice contents off (off + l)) :: fs := by
      simpa using hp.symm
    subst hfiles
    simp only [List.map_cons, declaredLens, hInt]
    rw [pySlice_length contents off (off + l) h1 (by omega) (by omega)]
    rw [ih (off + l + 2) fs hrec h4]
    congr 1
    omega

/-- Witness for file_lengths_exact_when_in_bounds at the scenario-3
attachment layout. -/
theorem file_lengths_exact_when_in_bounds_witness :
    parseFilesLoop ["3 a.txt", "3 b.txt"] (strBytes "BODY\r\nAAA\r\nBBB") 6 =
      Except.ok [("a.txt", strBytes "AAA"), ("b.txt", strBytes "BBB")] ∧
    fileRangesFit ["3 a.txt", "3 b.txt"]
      (strBytes "BODY\r\nAAA\r\nBBB").length 6 = true ∧
    ([("a.txt", strBytes "AAA"), ("b.txt", strBytes "BBB")] :
        List (String × List Nat)).map (fun f => f.2.length) =
      declaredLens ["3 a.txt", "3 b.txt"] :=
  ⟨by decide, by decide,
    file_lengths_exact_when_in_bounds ["3 a.txt", "3 b.txt"]
      (strBytes "BODY\r\nAAA\r\nBBB") 6
      [("a.txt", strBytes "AAA"), ("b.txt", strBytes "BBB")]
      (by decide) (by decide)⟩


theorem asciiEncodeCore_isSome (s : List Char) :
    (asciiEncodeCore s).isSome = s.all (fun c => c.toNat < 128) := by
  induction s with
  | nil => rfl
  | cons c rest ih =>
    simp only [asciiEncodeCore, List.all_cons]
    by_cases h : c.toNat < 128
    · rw [if_pos h, ← ih]
      cases asciiEncodeCore rest <;> simp [h]
    · rw [if_neg h]
      simp [h]

theorem asciiEncodeCore_some (s : List Char) (bs : List Nat)
    (h : asciiEncodeCore s = some bs) : bs = s.map Char.toNat := by
  induction s generalizing bs with
  | nil => simpa [asciiEncodeCore] using h.symm
  | cons c rest ih =>
    simp only [asciiEncodeCore] at h
    by_cases hc : c.toNat < 128
    · rw [if_pos hc] at h
      rcases hrec : asciiEncodeCore rest with _ | bs2
      · rw [hrec] at h; simp at h
      rw [hrec] at h
      have hbs : c.toNat :: bs2 = bs := by simpa using h
      rw [← hbs, List.map_cons, ih bs2 hrec]
    · rw [if_neg hc] at h; simp at h

theorem encLine_isSome (n v : String) :
    (encLine n v).isSome = (strAscii n && strAscii v) := by
  simp +decide [encLine, strAscii, asciiEncodeCore_isSome, List.all_append]

theorem encLines1_isSome (n : String) (vs : List String) :
    (encLines1 n vs).isSome = vs.all (fun v => strAscii n && strAscii v) := by
  induction vs with
  | nil => rfl
  | cons v rest ih =>
    simp only [encLines1, List.all_cons]
    rcases hl : encLine n v with _ | l
    · have h0 : (strAscii n && strAscii v) = false := by
        rw [← encLine_isSome, hl]; rfl
      simp [h0]
    · have h1 : (strAscii n && strAscii v) = true := by
        rw [← encLine_isSome, hl]; rfl
      simp [h1, ← ih]

theorem emitLines_isSome (l : List (String × HVal)) :
    (emitLines l).isSome = l.all entryAscii := by
  induction l with
  | nil => rfl
  | cons kv rest ih =>
    obtain ⟨name, v⟩ := kv
    cases v with
    | strs vs =>
      simp only [emitLines, List.all_cons, entryAscii]
      rcases hl : encLines1 name vs with _ | ls
      · have h0 : vs.all (fun v => strAscii name && strAscii v) = false := by
          rw [← encLines1_isSome, hl]; rfl
        simp [h0]
      · have h1 : vs.all (fun v => strAscii name && strAscii v) = true := by
          rw [← encLines1_isSome, hl]; rfl
        simp [h1, ← ih]
    | str v0 =>
      simp only [emitLines, List.all_cons, entryAscii]
      rcases hl : encLine name (hvalText (.str v0)) with _ | l0
      · have h0 : (strAscii name && strAscii (hvalText (.str v0))) = false := by
          rw [← encLine_isSome, hl]; rfl
        simp [h0]
      · have h1 : (strAscii name && strAscii (hvalText (.str v0))) = true := by
          rw [← encLine_isSome, hl]; rfl
        simp [h1, ← ih]
    | vnone =>
      simp only [emitLines, List.all_cons, entryAscii]
      rcases hl : encLine name (hvalText .vnone) with _ | l0
      · have h0 : (strAscii name && strAscii (hvalText .vnone)) = false := by
          rw [← encLine_isSome, hl]; rfl
        simp [h0]
      · have h1 : (strAscii name && strAscii (hvalText .vnone)) = true := by
          rw [← encLine_isSome, hl]; rfl
        simp [h1, ← ih]
    | num n0 =>
      simp only [emitLines, List.all_cons, entryAscii]
      rcases hl : encLine name (hvalText (.num n0)) with _ | l0
      · have h0 : (strAscii name && strAscii (hvalText (.num n0))) = false := by
          rw [← encLine_isSome, hl]; rfl
        simp [h0]
      · have h1 : (strAscii name && strAscii (hvalText (.num n0))) = true := by
          rw [← encLine_isSome, hl]; rfl
        simp [h1, ← ih]

/-- Claim C3 (corrected), counterexample: a message with an all-ASCII body
but a non-ASCII subject is rejected by the encoder, so the encoder does not
fail only on a non-ASCII body. -/
theorem nonascii_subject_encode_fails_cex :
    (to_lines nonAsciiSubjectMsg).toOption.isSome = false ∧
    strAscii nonAsciiSubjectMsg.body = true :=
  ⟨by decide, by decide⟩

/-- Claim C3 (corrected), amended: the encoder succeeds exactly when the
body and every emitted header line (name and value - covering subject,
from, header values, attachment names and extra headers alike) are ASCII;
every ascii-encode site raises the same UnicodeEncodeError. -/
theorem to_lines_ok_iff_all_ascii (m : B2FMessage) :
    (to_lines m).toOption.isSome = encodeAllAscii m := by
  unfold to_lines encodeAllAscii
  rcases hb : asciiEncodeCore m.body.data with _ | bs
  · have h0 : strAscii m.body = false := by
      unfold strAscii; rw [← asciiEncodeCore_isSome, hb]; rfl
    simp [h0, Except.toOption]
  · have hba : strAscii m.body = true := by
      unfold strAscii; rw [← asciiEncodeCore_isSome, hb]; rfl
    have hlen : bs.length = m.body.data.length := by
      rw [asciiEncodeCore_some _ _ hb, List.length_map]
    simp only []
    rw [hlen]
    rcases he : emitLines (headersDict m m.body.data.length) with _ | hl
    · have h2 := emitLines_isSome (headersDict m m.body.data.length)
      rw [he] at h2
      rw [hba, Bool.true_and, ← h2]
      rfl
    · have h2 := emitLines_isSome (headersDict m m.body.data.length)
      rw [he] at h2
      rw [hba, Bool.true_and, ← h2]
      rfl


theorem encLine_some (n v : String) (l : List Nat) (h : encLine n v = some l) :
    l = strBytes (n ++ ": " ++ v) := by
  unfold encLine at h
  rw [asciiEncodeCore_some _ _ h]
  rfl

theorem encLines1_some (n : String) (vs : List String) (ls : List (List Nat))
    (h : encLines1 n vs = some ls) :
    ls = vs.map (fun v => strBytes (n ++ ": " ++ v)) := by
  induction vs generalizing ls with
  | nil => simpa [encLines1] using h.symm
  | cons v rest ih =>
    simp only [encLines1] at h
    rcases hl : encLine n v with _ | l0
    · rw [hl] at h; simp at h
    rw [hl] at h
    rcases hr : encLines1 n rest with _ | ls0
    · rw [hr] at h; simp at h
    rw [hr] at h
    have hcons : l0 :: ls0 = ls := by simpa using h
    rw [← hcons, List.map_cons, ih ls0 hr, encLine_some n v l0 hl]

theorem emitLines_some (l : List (String × HVal)) (out : List (List Nat))
    (h : emitLines l = some out) : out = l.flatMap entryLines := by
  induction l generalizing out with
  | nil => simpa [emitLines] using h.symm
  | cons kv rest ih =>
    obtain ⟨name, v⟩ := kv
    cases v with
    | strs vs =>
      simp only [emitLines] at h
      rcases h1 : encLines1 name vs with _ | ls
      · rw [h1] at h; simp at h
      rw [h1] at h
      rcases h2 : emitLines rest with _ | out2
      · rw [h2] at h; simp at h
      rw [h2] at h
      have hcons : ls ++ out2 = out := by simpa using h
      rw [← hcons, List.flatMap_cons, ih out2 h2, encLines1_some _ _ _ h1]
      rfl
    | str v0 =>
      simp only [emitLines] at h
      rcases h1 : encLine name (hvalText (.str v0)) with _ | l0
      · rw [h1] at h; simp at h
      rw [h1] at h
      rcases h2 : emitLines rest with _ | out2
      · rw [h2] at h; simp at h
      rw [h2] at h
      have hcons : l0 :: out2 = out := by simpa using h
      rw [← hcons, List.flatMap_cons, ih out2 h2, encLine_some _ _ _ h1]
      rfl
    | vnone =>
      simp only [emitLines] at h
      rcases h1 : encLine name (hvalText .vnone) with _ | l0
      · rw [h1] at h; simp at h
      rw [h1] at h
      rcases h2 : emitLines rest with _ | out2
      · rw [h2] at h; simp at h
      rw [h2] at h
      have hcons : l0 :: out2 = out := by simpa using h
      rw [← hcons, List.flatMap_cons, ih out2 h2, encLine_some _ _ _ h1]
      rfl
    | num n0 =>
      simp only [emitLines] at h
      rcases h1 : encLine name (hvalText (.num n0)) with _ | l0
      · rw [h1] at h; simp at h
      rw [h1] at h
      rcases h2 : emitLines rest with _ | out2
      · rw [h2] at h; simp at h
      rw [h2] at h
      have hcons : l0 :: out2 = out := by simpa using h
      rw [← hcons, List.flatMap_cons, ih out2 h2, encLine_some _ _ _ h1]
      rfl

theorem dictSet_append {β : Type} (d : List (String × β)) (k : String)
    (v : β) (h : ∀ kv ∈ d, kv.1 ≠ k) : dictSet d k v = d ++ [(k, v)] := by
  induction d with
  | nil => rfl
  | cons kv rest ih =>
    obtain ⟨k0, v0⟩ := kv
    have hk0 : k0 ≠ k := h (k0, v0) (List.mem_cons_self _ _)
    simp only [dictSet, if_neg hk0, List.cons_append]
    rw [ih (fun kv2 hkv2 => h kv2 (List.mem_cons_of_mem _ hkv2))]

theorem dictMergeH_append (extra : List (String × List String)) :
    ∀ base : List (String × HVal),
      (∀ kv ∈ extra, ∀ b ∈ base, b.1 ≠ kv.1) →
      (extra.map Prod.fst).Nodup →
      dictMergeH base extra =
        base ++ extra.map (fun kv => (kv.1, HVal.strs kv.2)) := by
  induction extra with
  | nil => intro base _ _; simp [dictMergeH]
  | cons kv rest ih =>
    intro base hdisj hnodup
    obtain ⟨k0, vs0⟩ := kv
    have hb : ∀ b ∈ base, b.1 ≠ k0 :=
      fun b hbm => hdisj (k0, vs0) (List.mem_cons_self _ _) b hbm
    have hstep : dictSet base k0 (HVal.strs vs0) =
        base ++ [(k0, HVal.strs vs0)] := dictSet_append _ _ _ hb
    have hk0notin : k0 ∉ rest.map Prod.fst := by
      have := hnodup
      simp only [List.map_cons, List.nodup_cons] at this
      exact this.1
    have hd2 : ∀ kv2 ∈ rest, ∀ b ∈ base ++ [(k0, HVal.strs vs0)],
        b.1 ≠ kv2.1 := by
      intro kv2 hkv2 b hbmem
      rcases List.mem_append.mp hbmem with hbase | hsing
      · exact hdisj kv2 (List.mem_cons_of_mem _ hkv2) b hbase
      · have hbv : b = (k0, HVal.strs vs0) := by simpa using hsing
        rw [hbv]
        intro heq
        have heq2 : k0 = kv2.1 := heq
        apply hk0notin
        rw [heq2]
        exact List.mem_map_of_mem _ hkv2
    have hn2 : (rest.map Prod.fst).Nodup := by
      have := hnodup
      simp only [List.map_cons, List.nodup_cons] at this
      exact this.2
    calc dictMergeH base ((k0, vs0) :: rest)
        = dictMergeH (dictSet base k0 (HVal.strs vs0)) rest := rfl
      _ = dictMergeH (base ++ [(k0, HVal.strs vs0)]) rest := by rw [hstep]
      _ = (base ++ [(k0, HVal.strs vs0)]) ++
            rest.map (fun kv => (kv.1, HVal.strs kv.2)) := ih _ hd2 hn2
      _ = base ++ ((k0, vs0) :: rest).map
            (fun kv => (kv.1, HVal.strs kv.2)) := by simp

theorem assocFind_append {β : Type} (d1 d2 : List (String × β)) (k : String) :
    assocFind (d1 ++ d2) k = (assocFind d1 k).elim (assocFind d2 k) some := by
  induction d1 with
  | nil => simp [assocFind]
  | cons kv rest ih =>
    obtain ⟨k0, v0⟩ := kv
    by_cases h : k0 = k <;> simp [assocFind, h, ih]

theorem flatMap_strs_map (l : List (String × List String)) :
    (l.map (fun kv => (kv.1, HVal.strs kv.2))).flatMap entryLines =
      l.flatMap (fun kv => kv.2.map (fun v => strBytes (kv.1 ++ ": " ++ v))) := by
  induction l with
  | nil => rfl
  | cons kv rest ih => simp [entryLines, ih]


/-- Claim C8 (corrected), counterexample: the encoder's emitted chunk
sequence on orderMsg contains a From line between Type and To, so it
differs from the order the claim states, which omits From. -/
theorem encoder_order_has_from_cex :
    to_lines orderMsg = Except.ok (specOrderOutput orderMsg) ∧
    specOrderOutput orderMsg ≠ claimOrderOutput orderMsg :=
  ⟨by decide, by decide⟩

/-- Claim C8 (corrected), amended: for every message the encoder accepts
(with the section-3 invariant that extra header names are not known names,
and distinct extra keys as a Python dict guarantees), the emitted header
lines appear in the order Mid, Date, Type (omitted when absent), From, To
(one line per entry), Cc, Subject, Mbo, Body, File (one line per
attachment), then the extra headers in stored order with stored casing -
the claim's order with a From line restored after Type. -/
theorem to_lines_emits_spec_order (m : B2FMessage) (L : List (List Nat))
    (h1 : to_lines m = Except.ok L)
    (h2 : ∀ kv ∈ m.extra_headers,
      KNOWN_B2F_HEADERS.contains (pyCasefold kv.1) = false)
    (h3 : (m.extra_headers.map Prod.fst).Nodup) :
    L = specOrderOutput m := by
  unfold to_lines at h1
  rcases hb : asciiEncodeCore m.body.data with _ | bs
  · rw [hb] at h1; simp at h1
  rw [hb] at h1
  simp only [] at h1
  rcases he : emitLines (headersDict m bs.length) with _ | hl
  · rw [he] at h1; simp at h1
  rw [he] at h1
  have hbs : bs = m.body.data.map Char.toNat := asciiEncodeCore_some _ _ hb
  have hL : L = hl ++ [[13, 10]] ++ [bs] ++ m.files.map (fun f => f.2) := by
    simpa using h1.symm
  have hdisj : ∀ kv ∈ m.extra_headers, ∀ b ∈ baseHeaders m bs.length,
      b.1 ≠ kv.1 := by
    intro kv hkv b hbm heq
    have hcont : KNOWN_B2F_HEADERS.contains (pyCasefold b.1) = true := by
      have hb1 : b.1 = "Mid" ∨ b.1 = "Date" ∨ b.1 = "Type" ∨ b.1 = "From" ∨
          b.1 = "To" ∨ b.1 = "Cc" ∨ b.1 = "Subject" ∨ b.1 = "Mbo" ∨
          b.1 = "Body" ∨ b.1 = "File" := by
        simp only [baseHeaders, List.mem_cons, List.not_mem_nil, or_false]
          at hbm
        rcases hbm with rfl | rfl | rfl | rfl | rfl | rfl | rfl | rfl | rfl |
          rfl <;> simp
      rcases hb1 with h | h | h | h | h | h | h | h | h | h <;> rw [h] <;>
        decide
    rw [heq, h2 kv hkv] at hcont
    exact Bool.noConfusion hcont
  have hmerge := dictMergeH_append m.extra_headers (baseHeaders m bs.length)
    hdisj h3
  have hflat := emitLines_some _ _ he
  have hextra_keep : (m.extra_headers.map
      (fun kv => (kv.1, HVal.strs kv.2))).filter
        (fun kv => kv.1 ≠ "Type") =
      m.extra_headers.map (fun kv => (kv.1, HVal.strs kv.2)) := by
    rw [List.filter_eq_self]
    intro a ha
    simp only [List.mem_map] at ha
    obtain ⟨kv, hkv, rfl⟩ := ha
    simp only [decide_eq_true_eq]
    intro heq
    have heq2 : kv.1 = "Type" := heq
    have hf := h2 kv hkv
    rw [heq2] at hf
    exact absurd hf (by decide)
  rcases htype : m.type with _ | t
  · have hfind : assocFind (baseHeaders m bs.length ++
        m.extra_headers.map (fun kv => (kv.1, HVal.strs kv.2))) "Type" =
        some HVal.vnone := by
      rw [assocFind_append]
      simp [baseHeaders, assocFind, htype]
    have hdict2 : headersDict m bs.length =
        [("Mid", HVal.str m.mid), ("Date", HVal.str (strftimeB2F m.date)),
         ("From", HVal.str m.from_), ("To", HVal.strs m.to_),
         ("Cc", HVal.strs m.cc), ("Subject", HVal.str m.subject),
         ("Mbo", HVal.str m.mbo), ("Body", HVal.num bs.length),
         ("File", HVal.strs (m.files.map
           (fun f => toString f.2.length ++ " " ++ f.1)))] ++
        m.extra_headers.map (fun kv => (kv.1, HVal.strs kv.2)) := by
      unfold headersDict delTypeIfNone
      rw [hmerge, if_pos hfind, List.filter_append, hextra_keep]
      congr 1
    rw [hL, hflat, hdict2]
    subst hbs
    simp [specOrderOutput, specOrderLines, entryLines, hvalText,
      flatMap_strs_map, List.map_map, Function.comp, String.append_assoc,
      List.append_assoc, strBytes, htype, List.length_map]
  · have hfind : assocFind (baseHeaders m bs.length ++
        m.extra_headers.map (fun kv => (kv.1, HVal.strs kv.2))) "Type" =
        some (HVal.str t) := by
      rw [assocFind_append]
      simp [baseHeaders, assocFind, htype]
    have hdict2 : headersDict m bs.length =
        [("Mid", HVal.str m.mid), ("Date", HVal.str (strftimeB2F m.date)),
         ("Type", HVal.str t),
         ("From", HVal.str m.from_), ("To", HVal.strs m.to_),
         ("Cc", HVal.strs m.cc), ("Subject", HVal.str m.subject),
         ("Mbo", HVal.str m.mbo), ("Body", HVal.num bs.length),
         ("File", HVal.strs (m.files.map
           (fun f => toString f.2.length ++ " " ++ f.1)))] ++
        m.extra_headers.map (fun kv => (kv.1, HVal.strs kv.2)) := by
      unfold headersDict delTypeIfNone
      rw [hmerge, if_neg (by rw [hfind]; simp)]
      simp [baseHeaders, htype]
    rw [hL, hflat, hdict2]
    subst hbs
    simp [specOrderOutput, specOrderLines, entryLines, hvalText,
      flatMap_strs_map, List.map_map, Function.comp, String.append_assoc,
      List.append_assoc, strBytes, htype, List.length_map]

/-- Witness for to_lines_emits_spec_order at orderMsg. -/
theorem to_lines_emits_spec_order_witness :
    to_lines orderMsg = Except.ok (specOrderOutput orderMsg) ∧
    (∀ kv ∈ orderMsg.extra_headers,
      KNOWN_B2F_HEADERS.contains (pyCasefold kv.1) = false) ∧
    (orderMsg.extra_headers.map Prod.fst).Nodup ∧
    specOrderOutput orderMsg = specOrderOutput orderMsg :=
  ⟨by decide, by decide, by decide,
    to_lines_emits_spec_order orderMsg (specOrderOutput orderMsg)
      (by decide) (by decide) (by decide)⟩

end B2F
